import Mathlib

/-!
Verification of the task-to-agent matching, delegation and conflict-resolution
core of the multi-agent orchestration platform.

The Lean definitions below are a shallow embedding of the Python source:

* `backend/agents/registry.py` — `CapabilityMatcher.calculate_capability_score`,
  `CapabilityMatcher.find_best_matches`, `AgentRegistry.register_agent`,
  `AgentRegistry.update_agent_status`, `AgentRegistry.heartbeat`,
  `AgentRegistry.find_best_agent_for_task`;
* `backend/tasks/decomposer.py` — `TaskDecomposer._analyze_complexity_heuristic`,
  `TaskDecomposer.analyze_task_complexity`;
* `backend/consensus/resolver.py` — `ConflictResolver._detect_resource_conflicts`,
  `ConflictResolver.resolve_conflict`, `ConflictResolver._resolve_by_expert_decision`;
* `backend/communication/message_bus.py` — `CommunicationProtocol.request_response`.

Python floats are modelled as `ℚ` (all constants involved are decimal literals),
timestamps as `ℕ`, database rows as Lean structures, Python dicts keyed by
strings as association lists, and fallible external calls (LLM transport,
message transport) as explicit `Except`/`Option` parameters.
-/

namespace MultiAgent

/-- A value stored in an agent's `resource_requirements` JSON dict.  Python
stores arbitrary JSON values; the detector only sums those that are `int` or
`float` (`isinstance(usage['requirement'], (int, float))`), so we distinguish
numeric values from everything else. -/
inductive RVal where
  | num (q : ℚ)
  | other (s : String)
deriving DecidableEq, Repr

/-- An `Agent` database row (`backend/database/models.py`).  The JSON column
`performance_metrics` is modelled by its two fields read by the matcher
(`success_rate`, `avg_response_time`), each `Option` because `dict.get` is used
with a default; `capabilities` is `Option` because the column is nullable and
the code guards with `agent.capabilities or []`. -/
structure Agent where
  id : ℕ
  name : String
  description : String := ""
  capabilities : Option (List String) := none
  status : String := "idle"
  success_rate : Option ℚ := none
  avg_response_time : Option ℚ := none
  resource_requirements : List (String × RVal) := []
  last_heartbeat : Option ℕ := none
deriving DecidableEq, Repr

/-- Task requirements dict as read by the matcher and the heuristic:
`requirements.get('capabilities', [])` and `requirements.get('multi_agent', False)`. -/
structure Requirements where
  capabilities : Option (List String) := none
  multi_agent : Option Bool := none
deriving DecidableEq, Repr

/-- Python's `str.lower()` restricted to its effect on ASCII letters (all
capability strings and task descriptions in this code base are ASCII),
character by character. -/
def pyLower (s : String) : String :=
  ⟨s.data.map Char.toLower⟩

/-- `CapabilityMatcher.calculate_capability_score` (registry.py lines 23-46):
empty requirement list scores 1.0, empty agent capabilities score 0.0,
otherwise both lists are lowercased into sets and the score is
`min(1.0, jaccard + 0.2 * exact_match_ratio)`. -/
def calculate_capability_score (agent_capabilities required_capabilities : List String) : ℚ :=
  if required_capabilities = [] then 1
  else if agent_capabilities = [] then 0
  else
    let agent_caps := (agent_capabilities.map pyLower).toFinset
    let required_caps := (required_capabilities.map pyLower).toFinset
    let intersection := agent_caps ∩ required_caps
    let union := agent_caps ∪ required_caps
    if union = ∅ then 0
    else
      let jaccard_score : ℚ := (intersection.card : ℚ) / (union.card : ℚ)
      let exact_match_bonus : ℚ :=
        if required_caps = ∅ then 0 else (intersection.card : ℚ) / (required_caps.card : ℚ)
      min 1 (jaccard_score + exact_match_bonus * (2/10))

/-- Response-time normalisation in `find_best_matches` (registry.py line 70):
`max(0, 1 - avg_response_time / 10000)`. -/
def responseTimeScore (avg_response_time : ℚ) : ℚ :=
  max 0 (1 - avg_response_time / 10000)

/-- The combined score computed for one agent inside
`CapabilityMatcher.find_best_matches` (registry.py lines 59-77):
`0.6 * capability_score + 0.3 * success_rate + 0.1 * response_time_score`. -/
def combinedScore (agent_capabilities required_capabilities : List String)
    (success_rate avg_response_time : ℚ) : ℚ :=
  calculate_capability_score agent_capabilities required_capabilities * (6/10) +
    success_rate * (3/10) +
    responseTimeScore avg_response_time * (1/10)

/-- The fixed keyword vocabulary of `_analyze_complexity_heuristic`
(decomposer.py line 121). -/
def complexKeywords : List String :=
  ["analyze", "research", "comprehensive", "multiple", "complex", "detailed"]

/-- Whether `needle` is a leading segment of `hay` (on character lists). -/
def leadsChars : List Char → List Char → Bool
  | [], _ => true
  | _ :: _, [] => false
  | n :: ns, h :: hs => n = h && leadsChars ns hs

/-- Whether `needle` occurs as a contiguous run inside `hay` (on character lists). -/
def occursInChars (needle : List Char) : List Char → Bool
  | [] => needle.isEmpty
  | h :: hs => leadsChars needle (h :: hs) || occursInChars needle hs

/-- Python's substring test `needle in hay` on strings. -/
def containsSubstr (hay needle : String) : Bool :=
  occursInChars needle.data hay.data

/-- The analysis dict produced by both complexity-analysis paths of
`TaskDecomposer` (decomposer.py lines 93-102 and 127-136); both paths emit
exactly these eight keys. -/
structure ComplexityAnalysis where
  complexity_score : ℕ
  requires_decomposition : Bool
  reasoning : String
  estimated_agents : ℕ
  estimated_time : ℕ
  required_capabilities : List String
  potential_challenges : List String
  decomposition_strategy : String
deriving DecidableEq, Repr

/-- `TaskDecomposer._analyze_complexity_heuristic` (decomposer.py lines 104-136):
score starts at 1, +2 when more than one required capability, +3 when the
`multi_agent` flag is truthy, +1 per complexity keyword occurring in the
lowercased description, capped at 10; decomposition required iff score >= 6. -/
def analyzeComplexityHeuristic (task_description : String) (requirements : Requirements) :
    ComplexityAnalysis :=
  let capabilities := requirements.capabilities.getD []
  let score1 : ℕ := 1
  let score2 := if capabilities.length > 1 then score1 + 2 else score1
  let score3 := if requirements.multi_agent.getD false then score2 + 3 else score2
  let description_lower := pyLower task_description
  let score4 := score3 + complexKeywords.countP (fun keyword => containsSubstr description_lower keyword)
  let score := min score4 10
  { complexity_score := score
    requires_decomposition := decide (score ≥ 6)
    reasoning := "Heuristic analysis based on " ++ toString capabilities.length ++
      " capabilities and task keywords"
    estimated_agents := max 1 capabilities.length
    estimated_time := score * 60
    required_capabilities := capabilities
    potential_challenges := []
    decomposition_strategy := "none" }

/-- The fixed conservative analysis returned by `analyze_task_complexity` when
the LLM call raises or its output fails to parse (decomposer.py lines 91-102). -/
def complexityErrorFallback (requirements : Requirements) : ComplexityAnalysis :=
  { complexity_score := 5
    requires_decomposition := false
    reasoning := "Error in analysis"
    estimated_agents := 1
    estimated_time := 300
    required_capabilities := requirements.capabilities.getD []
    potential_challenges := []
    decomposition_strategy := "none" }

/-- Outcome of the Decision-Oracle (LLM) side of complexity analysis:
the client failed to initialise (`self.llm is None`), the invocation raised or
its output was unparseable, or it produced a parsed analysis. -/
inductive LLMComplexityOutcome where
  | unavailable
  | failure (error : String)
  | parsed (analysis : ComplexityAnalysis)
deriving DecidableEq, Repr

/-- `TaskDecomposer.analyze_task_complexity` (decomposer.py lines 56-102):
heuristic when the LLM client is `None`; the parsed LLM analysis when the call
succeeds; the fixed conservative fallback dict when the call raises or parsing
fails. -/
def analyze_task_complexity (llm : LLMComplexityOutcome) (task_description : String)
    (requirements : Requirements) : ComplexityAnalysis :=
  match llm with
  | .unavailable => analyzeComplexityHeuristic task_description requirements
  | .parsed analysis => analysis
  | .failure _ => complexityErrorFallback requirements

/-- One element of the `matches` list built by `find_best_matches`:
the Python tuple `(agent, total_score, capability_score)`. -/
structure MatchEntry where
  agent : Agent
  total_score : ℚ
  capability_score : ℚ
deriving DecidableEq, Repr

/-- The total score `find_best_matches` computes for one agent, reading
`success_rate` (default 0.5) and `avg_response_time` (default 1000) from the
agent's performance metrics (registry.py lines 64-77). -/
def agentTotalScore (agent : Agent) (required_capabilities : List String) : ℚ :=
  combinedScore (agent.capabilities.getD []) required_capabilities
    (agent.success_rate.getD (1/2)) (agent.avg_response_time.getD 1000)

/-- The match tuple `find_best_matches` appends for one idle agent. -/
def matchEntryFor (required_capabilities : List String) (agent : Agent) : MatchEntry :=
  { agent := agent
    total_score := agentTotalScore agent required_capabilities
    capability_score := calculate_capability_score (agent.capabilities.getD [])
      required_capabilities }

/-- Stable insertion of a match entry into a list already sorted by descending
total score; the entry goes before the first strictly smaller score, matching
Python's stable `list.sort(key=lambda x: x[1], reverse=True)`. -/
def insertByScoreDesc (x : MatchEntry) : List MatchEntry → List MatchEntry
  | [] => [x]
  | y :: ys => if y.total_score < x.total_score then x :: y :: ys else y :: insertByScoreDesc x ys

/-- Stable sort of match entries by descending total score, modelling
`matches.sort(key=lambda x: x[1], reverse=True)` in `find_best_matches`. -/
def sortByScoreDesc : List MatchEntry → List MatchEntry
  | [] => []
  | x :: xs => insertByScoreDesc x (sortByScoreDesc xs)

/-- The `matches` list accumulated by the loop of `find_best_matches`
(registry.py lines 54-79): non-idle agents are skipped, idle agents contribute
their `(agent, total_score, capability_score)` tuple. -/
def idleMatches (agents : List Agent) (requirements : Requirements) : List MatchEntry :=
  let required_capabilities := requirements.capabilities.getD []
  agents.filterMap fun agent =>
    if agent.status ≠ "idle" then none
    else some (matchEntryFor required_capabilities agent)

/-- `CapabilityMatcher.find_best_matches` (registry.py lines 48-83): build the
match list over idle agents, sort by total score descending, return the first
`top_k`. -/
def find_best_matches (agents : List Agent) (requirements : Requirements) (top_k : ℕ) :
    List MatchEntry :=
  (sortByScoreDesc (idleMatches agents requirements)).take top_k

/-- `AgentRegistry.get_available_agents` (registry.py lines 218-225):
all agents whose status is `idle`. -/
def get_available_agents (agents : List Agent) : List Agent :=
  agents.filter fun agent => agent.status == "idle"

/-- `AgentRegistry.find_best_agent_for_task` (registry.py lines 272-290):
top match among idle agents, returned only when its total score strictly
exceeds the minimum score threshold `0.3`. -/
def find_best_agent_for_task (agents : List Agent) (task_requirements : Requirements) :
    Option Agent :=
  let available_agents := get_available_agents agents
  if available_agents.isEmpty then none
  else
    match find_best_matches available_agents task_requirements 1 with
    | [] => none
    | m :: _ => if m.total_score > 3/10 then some m.agent else none

/-- Fresh primary key for a newly inserted agent row (autoincrement). -/
def freshAgentId (agents : List Agent) : ℕ :=
  (agents.map Agent.id).foldr max 0 + 1

/-- `AgentRegistry.register_agent` (registry.py lines 94-154).  When a row with
the given name exists it is updated in place (description, capabilities,
resource requirements, status reset to idle, heartbeat stamped); the database
column `agents.name` is `unique`, so mapping the update over all rows with that
name coincides with SQLAlchemy's single-row mutation.  Otherwise a new row is
inserted with the default performance metrics
`{success_rate: 0.5, avg_response_time: 1000, ...}`. -/
def register_agent (agents : List Agent) (now : ℕ) (name description : String)
    (capabilities : List String) (resource_requirements : List (String × RVal)) :
    Agent × List Agent :=
  let upsert : Agent → Agent := fun a =>
    { a with
      description := description
      capabilities := some capabilities
      resource_requirements := resource_requirements
      status := "idle"
      last_heartbeat := some now }
  match agents.find? (fun a => a.name == name) with
  | some existing_agent =>
    (upsert existing_agent, agents.map fun a => if a.name == name then upsert a else a)
  | none =>
    let agent : Agent :=
      { id := freshAgentId agents
        name := name
        description := description
        capabilities := some capabilities
        resource_requirements := resource_requirements
        status := "idle"
        success_rate := some (1/2)
        avg_response_time := some 1000
        last_heartbeat := some now }
    (agent, agents ++ [agent])

/-- A `performance_update` dict passed to `update_agent_status`, restricted to
the two metric keys the matcher reads; a `some` field overwrites the stored
metric, as `dict.update` does. -/
structure PerformanceUpdate where
  success_rate : Option ℚ := none
  avg_response_time : Option ℚ := none
deriving DecidableEq, Repr

/-- `AgentRegistry.update_agent_status` (registry.py lines 181-206): look up the
agent by id (returns `false` when absent); otherwise write the new status,
stamp `last_heartbeat = utcnow()`, and merge any performance update. -/
def update_agent_status (agents : List Agent) (now : ℕ) (agent_id : ℕ) (status : String)
    (performance_update : Option PerformanceUpdate) : Bool × List Agent :=
  if agents.any (fun a => a.id == agent_id) then
    (true, agents.map fun a =>
      if a.id == agent_id then
        let a1 := { a with status := status, last_heartbeat := some now }
        match performance_update with
        | none => a1
        | some p =>
          { a1 with
            success_rate := (p.success_rate.map some).getD a1.success_rate
            avg_response_time := (p.avg_response_time.map some).getD a1.avg_response_time }
      else a)
  else (false, agents)

/-- `AgentRegistry.heartbeat` (registry.py lines 208-216): an `UPDATE ... WHERE
id = agent_id` stamping only `last_heartbeat`; returns whether a row matched. -/
def heartbeat (agents : List Agent) (now : ℕ) (agent_id : ℕ) : Bool × List Agent :=
  (agents.any (fun a => a.id == agent_id),
   agents.map fun a => if a.id == agent_id then { a with last_heartbeat := some now } else a)

/-- One step of building the `resource_usage` dict in
`_detect_resource_conflicts` (resolver.py lines 124-134): append the
`{agent_id, requirement}` entry to the list for `resource_type`, creating the
key on first use (Python dicts preserve insertion order). -/
def addResourceUsage (usage : List (String × List (ℕ × RVal))) (resource_type : String)
    (entry : ℕ × RVal) : List (String × List (ℕ × RVal)) :=
  match usage with
  | [] => [(resource_type, [entry])]
  | (k, l) :: rest =>
    if k == resource_type then (k, l ++ [entry]) :: rest
    else (k, l) :: addResourceUsage rest resource_type entry

/-- The `resource_usage` dict of `_detect_resource_conflicts`: for each agent,
each `(resource_type, requirement)` of its `resource_requirements` is appended
to that resource's usage list. -/
def buildResourceUsage (agents : List Agent) : List (String × List (ℕ × RVal)) :=
  agents.foldl
    (fun usage agent =>
      agent.resource_requirements.foldl
        (fun usage p => addResourceUsage usage p.1 (agent.id, p.2)) usage)
    []

/-- `sum(usage['requirement'] for usage in usage_list if isinstance(..., (int, float)))`:
the sum of the numeric requirements in a usage list. -/
def totalNumericRequirement (usage_list : List (ℕ × RVal)) : ℚ :=
  (usage_list.filterMap fun u =>
    match u.2 with
    | .num q => some q
    | .other _ => none).sum

/-- A resource-contention conflict dict emitted by `_detect_resource_conflicts`
(resolver.py lines 146-152). -/
structure ResourceConflict where
  conflict_type : String
  resource_type : String
  involved_agents : List ℕ
  total_requirement : ℚ
  severity : String
deriving DecidableEq, Repr

/-- `ConflictResolver._detect_resource_conflicts` (resolver.py lines 114-154):
group requirement entries by resource type; for each resource claimed by more
than one entry whose numeric total exceeds 1.0, emit a conflict, severity
`high` when the total exceeds 1.5 and `medium` otherwise. -/
def detect_resource_conflicts (agents : List Agent) : List ResourceConflict :=
  (buildResourceUsage agents).filterMap fun g =>
    if g.2.length > 1 then
      let total_requirement := totalNumericRequirement g.2
      if total_requirement > 1 then
        some { conflict_type := "resource_contention"
               resource_type := g.1
               involved_agents := g.2.map Prod.fst
               total_requirement := total_requirement
               severity := if total_requirement > 3/2 then "high" else "medium" }
      else none
    else none

/-- Spec-side quantity for claims C6 and C10: the sum, over all supplied
agents, of the numeric requirement each lists for `resource_type`. -/
def sumNumericRequirement (agents : List Agent) (resource_type : String) : ℚ :=
  (agents.map fun agent =>
    (agent.resource_requirements.filterMap fun p =>
      if p.1 = resource_type then
        match p.2 with
        | .num q => some q
        | .other _ => none
      else none).sum).sum

/-- Spec-side quantity for claims C6 and C10: how many of the supplied agents
list `resource_type` among their resource requirements. -/
def countAgentsRequiring (agents : List Agent) (resource_type : String) : ℕ :=
  (agents.filter fun agent =>
    agent.resource_requirements.any fun p => p.1 == resource_type).length

/-- The `{agent_id, requirement}` entries one agent contributes for a given
resource type (used to characterise the grouping of
`_detect_resource_conflicts`). -/
def entriesOfAgent (resource_type : String) (agent : Agent) : List (ℕ × RVal) :=
  agent.resource_requirements.filterMap fun p =>
    if p.1 = resource_type then some (agent.id, p.2) else none

/-- All entries the supplied agents contribute for a given resource type, in
iteration order. -/
def entriesFor (agents : List Agent) (resource_type : String) : List (ℕ × RVal) :=
  (agents.map (entriesOfAgent resource_type)).flatten

/-- The usage list stored under a resource-type key (empty when absent). -/
def groupFor (usage : List (String × List (ℕ × RVal))) (resource_type : String) :
    List (ℕ × RVal) :=
  match usage with
  | [] => []
  | (k, l) :: rest => if k == resource_type then l else groupFor rest resource_type

/-- The conflict dict `_detect_resource_conflicts` emits for the usage group of
one contended resource (named here so lemmas can refer to it compactly). -/
def mkResourceConflict (resource_type : String) (usage_list : List (ℕ × RVal)) :
    ResourceConflict :=
  { conflict_type := "resource_contention"
    resource_type := resource_type
    involved_agents := usage_list.map Prod.fst
    total_requirement := totalNumericRequirement usage_list
    severity := if totalNumericRequirement usage_list > 3/2 then "high" else "medium" }

/-- Scenario agent requiring `cpu: 0.6`. -/
def cpuAgent1 : Agent :=
  { id := 1, name := "R1", resource_requirements := [("cpu", RVal.num (6/10))] }

/-- Second scenario agent requiring `cpu: 0.6`. -/
def cpuAgent2 : Agent :=
  { id := 2, name := "R2", resource_requirements := [("cpu", RVal.num (6/10))] }

/-- An agent whose single `cpu` requirement alone exceeds the contention
threshold. -/
def hogAgent : Agent :=
  { id := 1, name := "H", resource_requirements := [("cpu", RVal.num 2)] }

/-- The result dict a resolution strategy returns, restricted to the keys
`resolve_conflict` itself reads (`success` via `result.get('success')`,
`error` via `result.get('error')`) plus the `method` tag of the shared output
contract; strategy-specific payload keys do not influence the status
transition. -/
structure StratResult where
  success : Option Bool := none
  error : Option String := none
  method : Option String := none
deriving DecidableEq, Repr

/-- An entry of `ConflictResolver.active_conflicts` (resolver.py lines 96-108),
restricted to the fields `resolve_conflict` reads or writes: the lifecycle
`status` plus the resolution bookkeeping fields.  Fresh records are created
with status `detected`. -/
structure ConflictRecord where
  conflicts : List ResourceConflict := []
  involved_agents : List ℕ := []
  status : String := "detected"
  resolution : Option StratResult := none
  resolved_at : Option ℕ := none
  resolution_error : Option String := none
deriving DecidableEq, Repr

/-- Dict lookup in `active_conflicts` (first entry whose key matches). -/
def lookupConflict (active_conflicts : List (String × ConflictRecord)) (conflict_id : String) :
    Option ConflictRecord :=
  match active_conflicts with
  | [] => none
  | p :: rest => if p.1 == conflict_id then some p.2 else lookupConflict rest conflict_id

/-- `ConflictResolver.resolve_conflict` (resolver.py lines 230-270).  The
dispatched strategy's evaluation is passed in as `strategy_outcome`: `.ok r`
when the strategy coroutine returned the dict `r`, `.error e` when it raised
(the surrounding `try`/`except` then returns `{'success': False, 'error': e}`
without touching the record).  On a returned dict the record's status becomes
`resolved` or `failed` according to the truthiness of `result.get('success')`. -/
def resolve_conflict (active_conflicts : List (String × ConflictRecord)) (conflict_id : String)
    (now : ℕ) (strategy_outcome : Except String StratResult) :
    StratResult × List (String × ConflictRecord) :=
  match lookupConflict active_conflicts conflict_id with
  | none => ({ success := some false, error := some "Conflict not found" }, active_conflicts)
  | some _ =>
    match strategy_outcome with
    | .error e => ({ success := some false, error := some e }, active_conflicts)
    | .ok result =>
      let updateRecord : ConflictRecord → ConflictRecord := fun c =>
        if result.success = some true then
          { c with status := "resolved", resolution := some result, resolved_at := some now }
        else
          { c with status := "failed", resolution_error := result.error }
      (result,
       active_conflicts.map fun p => if p.1 == conflict_id then (p.1, updateRecord p.2) else p)

/-- `ConflictResolver._resolve_by_expert_decision` (resolver.py lines 468-511),
with the expert's reply to the `expert_decision_request` exchange passed in as
`expert_response`.  The Python `max(agents, key=...)` raises `ValueError` when
the involved agents resolve to no database rows — the one statement of the
strategy outside any `try` block — so the strategy itself raises in that case;
otherwise a failed exchange is caught and reported as an unsuccessful dict. -/
def resolve_by_expert_decision (agents : List Agent)
    (expert_response : Except String StratResult) : Except String StratResult :=
  if agents.isEmpty then
    Except.error "max() arg is an empty sequence"
  else
    match expert_response with
    | .ok _ => .ok { success := some true, method := some "expert_decision" }
    | .error e => .ok { success := some false, error := some ("Failed to get expert decision: " ++ e) }

/-- A JSON-scalar value of a message payload dict. -/
inductive PVal where
  | pbool (b : Bool)
  | pstr (s : String)
  | pnum (q : ℚ)
deriving DecidableEq, Repr

/-- Dict lookup in a message payload. -/
def lookupPVal (d : List (String × PVal)) (key : String) : Option PVal :=
  (d.find? fun p => p.1 == key).map Prod.snd

/-- The literal dict `request_response` returns on `asyncio.TimeoutError`
(message_bus.py lines 325-329). -/
def timeoutResponse (correlation_id : String) : List (String × PVal) :=
  [("success", .pbool false), ("error", .pstr "Request timeout"),
   ("correlation_id", .pstr correlation_id)]

/-- How the awaited exchange of `request_response` ends: a response message
resolved the future, the timeout elapsed, or sending raised (the exception
propagates to the caller). -/
inductive WaitOutcome where
  | response (message : List (String × PVal))
  | timedOut
  | sendFailure (error : String)
deriving DecidableEq, Repr

/-- `CommunicationProtocol.request_response` (message_bus.py lines 296-332),
as a transition on the key set of `pending_requests`: the fresh correlation id
is registered (dict assignment — a no-op on the key set when already present),
then `send_message` is awaited, and only then does the `try`/`finally` begin.
The `finally` block pops the waiter on the two paths on which the call returns
(response delivered, timeout); a raising send propagates *before* the
`try`/`finally` is entered, so on that path the waiter entry is left
registered.  Returns the call's result (`.error` when the send raised) and the
final pending-key set. -/
def request_response (pending_requests : List String) (correlation_id : String)
    (outcome : WaitOutcome) : Except String (List (String × PVal)) × List String :=
  let registered :=
    if correlation_id ∈ pending_requests then pending_requests
    else pending_requests ++ [correlation_id]
  match outcome with
  | .response message => (.ok message, registered.erase correlation_id)
  | .timedOut => (.ok (timeoutResponse correlation_id), registered.erase correlation_id)
  | .sendFailure e => (.error e, registered)

/-- `CommunicationProtocol.handle_response` (message_bus.py lines 334-341),
reduced to whether the incoming response is delivered to a waiter: only when it
carries a correlation id that is a pending key; otherwise it is discarded. -/
def handle_response (pending_requests : List String) (correlation_id : Option String) : Bool :=
  match correlation_id with
  | some cid => pending_requests.contains cid
  | none => false

/-- Concrete task requirements used in the spec's matching scenario:
a task requiring `{data_analysis}`. -/
def reqDataAnalysis : Requirements :=
  { capabilities := some ["data_analysis"] }

/-- Scenario agent `A1` with capabilities `{data_analysis, reporting}` and
default performance metrics (absent, so the matcher reads 0.5 / 1000). -/
def agentA1 : Agent :=
  { id := 1, name := "A1", capabilities := some ["data_analysis", "reporting"],
    status := "idle" }

/-- Scenario agent `A2` with capabilities `{web_scraping}` and default
performance metrics. -/
def agentA2 : Agent :=
  { id := 2, name := "A2", capabilities := some ["web_scraping"], status := "idle" }

/-- An idle agent whose combined score is exactly `0.3`: no matching
capabilities (capability term 0), `success_rate = 1.0` (term 0.3) and
`avg_response_time = 10000` (response-time term 0). -/
def boundaryAgent : Agent :=
  { id := 3, name := "A3", capabilities := some [], status := "idle",
    success_rate := some 1, avg_response_time := some 10000 }

/-! ### Helper lemmas about the capability and combined scores -/

theorem calculate_capability_score_eq (A R : List String) (hR : R ≠ []) (hA : A ≠ [])
    (i u r : ℕ)
    (hi : ((A.map pyLower).toFinset ∩ (R.map pyLower).toFinset).card = i)
    (hu : ((A.map pyLower).toFinset ∪ (R.map pyLower).toFinset).card = u)
    (hr : (R.map pyLower).toFinset.card = r) :
    calculate_capability_score A R = min 1 ((i : ℚ) / u + (i : ℚ) / r * (2/10)) := by
  have hRne : (R.map pyLower).toFinset ≠ ∅ := by
    simp only [ne_eq, List.toFinset_eq_empty_iff, List.map_eq_nil_iff]
    exact hR
  have hUne : (A.map pyLower).toFinset ∪ (R.map pyLower).toFinset ≠ ∅ := by
    intro h
    exact hRne (Finset.union_eq_empty.mp h).2
  simp only [calculate_capability_score, if_neg hR, if_neg hA, if_neg hUne, if_neg hRne,
    hi, hu, hr]

theorem calculate_capability_score_nonneg (A R : List String) :
    0 ≤ calculate_capability_score A R := by
  simp only [calculate_capability_score]
  split_ifs
  · norm_num
  · norm_num
  · norm_num
  · exact le_min (by norm_num) (by positivity)
  · exact le_min (by norm_num) (by positivity)

theorem calculate_capability_score_le_one (A R : List String) :
    calculate_capability_score A R ≤ 1 := by
  simp only [calculate_capability_score]
  split_ifs
  · norm_num
  · norm_num
  · norm_num
  · exact min_le_left _ _
  · exact min_le_left _ _

theorem responseTimeScore_nonneg (t : ℚ) : 0 ≤ responseTimeScore t :=
  le_max_left 0 _

theorem responseTimeScore_le_one (t : ℚ) (ht : 0 ≤ t) : responseTimeScore t ≤ 1 := by
  have h : (0:ℚ) ≤ t / 10000 := by positivity
  exact max_le (by norm_num) (by linarith)

/-! ### Helper lemmas about the sort inside `find_best_matches` -/

theorem insertByScoreDesc_ne_nil (x : MatchEntry) (l : List MatchEntry) :
    insertByScoreDesc x l ≠ [] := by
  cases l with
  | nil => simp [insertByScoreDesc]
  | cons y ys =>
    simp only [insertByScoreDesc]
    split <;> simp

theorem mem_insertByScoreDesc {x y : MatchEntry} {l : List MatchEntry} :
    y ∈ insertByScoreDesc x l ↔ y = x ∨ y ∈ l := by
  induction l with
  | nil => simp [insertByScoreDesc]
  | cons z zs ih =>
    simp only [insertByScoreDesc]
    split
    · simp [List.mem_cons]
    · simp only [List.mem_cons, ih]
      tauto

theorem sortByScoreDesc_eq_nil_iff {l : List MatchEntry} :
    sortByScoreDesc l = [] ↔ l = [] := by
  cases l with
  | nil => simp [sortByScoreDesc]
  | cons x xs =>
    constructor
    · intro h
      exact absurd h (insertByScoreDesc_ne_nil x (sortByScoreDesc xs))
    · intro h
      exact absurd h (List.cons_ne_nil x xs)

theorem mem_sortByScoreDesc {l : List MatchEntry} {y : MatchEntry} :
    y ∈ sortByScoreDesc l ↔ y ∈ l := by
  induction l with
  | nil => simp [sortByScoreDesc]
  | cons x xs ih =>
    simp [sortByScoreDesc, mem_insertByScoreDesc, ih]

theorem sortByScoreDesc_head_max {l : List MatchEntry} {m : MatchEntry} {rest : List MatchEntry}
    (h : sortByScoreDesc l = m :: rest) :
    m ∈ l ∧ ∀ y ∈ l, y.total_score ≤ m.total_score := by
  induction l generalizing m rest with
  | nil => simp [sortByScoreDesc] at h
  | cons a as ih =>
    rw [sortByScoreDesc] at h
    rcases hs : sortByScoreDesc as with _ | ⟨b, bs⟩
    · rw [hs] at h
      simp only [insertByScoreDesc, List.cons.injEq] at h
      obtain ⟨rfl, -⟩ := h
      have hasnil : as = [] := sortByScoreDesc_eq_nil_iff.mp hs
      subst hasnil
      refine ⟨List.mem_cons_self _ _, ?_⟩
      intro y hy
      rcases List.mem_cons.mp hy with rfl | hy
      · exact le_refl _
      · simp at hy
    · rw [hs] at h
      obtain ⟨hb_mem, hb_max⟩ := ih hs
      rw [insertByScoreDesc] at h
      split at h
      · rename_i hlt
        obtain ⟨rfl, -⟩ := List.cons.injEq .. |>.mp h
        refine ⟨List.mem_cons_self _ _, ?_⟩
        intro y hy
        rcases List.mem_cons.mp hy with rfl | hy
        · exact le_refl _
        · exact le_trans (hb_max y hy) hlt.le
      · rename_i hnlt
        obtain ⟨rfl, -⟩ := List.cons.injEq .. |>.mp h
        refine ⟨List.mem_cons_of_mem _ hb_mem, ?_⟩
        intro y hy
        rcases List.mem_cons.mp hy with rfl | hy
        · exact not_lt.mp hnlt
        · exact hb_max y hy

theorem mem_idleMatches {agents : List Agent} {req : Requirements} {e : MatchEntry} :
    e ∈ idleMatches agents req ↔
      ∃ a ∈ agents, a.status = "idle" ∧ e = matchEntryFor (req.capabilities.getD []) a := by
  simp only [idleMatches, List.mem_filterMap]
  constructor
  · rintro ⟨a, ha, hfa⟩
    by_cases hst : a.status = "idle"
    · simp only [hst, ne_eq, not_true_eq_false, if_neg, ite_false, Option.some.injEq,
        not_false_eq_true, if_false] at hfa
      exact ⟨a, ha, hst, hfa.symm⟩
    · rw [if_pos hst] at hfa
      exact absurd hfa (Option.noConfusion)
  · rintro ⟨a, ha, hst, rfl⟩
    exact ⟨a, ha, by simp [hst]⟩

theorem mem_find_best_matches {agents : List Agent} {req : Requirements} {k : ℕ}
    {e : MatchEntry} (he : e ∈ find_best_matches agents req k) :
    ∃ a ∈ agents, a.status = "idle" ∧ e = matchEntryFor (req.capabilities.getD []) a := by
  have he1 : e ∈ sortByScoreDesc (idleMatches agents req) := List.take_subset _ _ he
  exact mem_idleMatches.mp (mem_sortByScoreDesc.mp he1)

/-! ### Claims C1, C2, C4 -/

/-- C1: for every agent capability list `A`, required list `R`, success rate in
`[0,1]` and nonnegative average response time, the combined score that
`find_best_matches` computes (`0.6·capability + 0.3·success + 0.1·response`,
with the capability term `min(1, J + 0.2·E)` over the lowercased sets) lies in
`[0, 1.2]`; when `R` is empty the capability term is `1.0`, so the total is the
pure performance blend `0.6 + 0.3·s + 0.1·rts`.  The final conjunct ties the
bounded quantity to the entries `find_best_matches` actually produces. -/
theorem c1_combined_score_range (A R : List String) (s t : ℚ)
    (hs0 : 0 ≤ s) (hs1 : s ≤ 1) (ht : 0 ≤ t) :
    (0 ≤ combinedScore A R s t ∧ combinedScore A R s t ≤ 12/10)
    ∧ (R = [] → calculate_capability_score A R = 1 ∧
        combinedScore A R s t = 6/10 + s * (3/10) + responseTimeScore t * (1/10))
    ∧ (∀ (agents : List Agent) (req : Requirements) (k : ℕ),
        ∀ e ∈ find_best_matches agents req k,
          e.total_score = combinedScore (e.agent.capabilities.getD [])
            (req.capabilities.getD []) (e.agent.success_rate.getD (1/2))
            (e.agent.avg_response_time.getD 1000)) := by
  have hc0 := calculate_capability_score_nonneg A R
  have hc1 := calculate_capability_score_le_one A R
  have hr0 := responseTimeScore_nonneg t
  have hr1 := responseTimeScore_le_one t ht
  refine ⟨⟨?_, ?_⟩, ?_, ?_⟩
  · unfold combinedScore
    have h1 : 0 ≤ calculate_capability_score A R * (6/10) := by positivity
    have h2 : 0 ≤ s * (3/10) := by positivity
    have h3 : 0 ≤ responseTimeScore t * (1/10) := by positivity
    linarith
  · unfold combinedScore
    have h1 : calculate_capability_score A R * (6/10) ≤ 1 * (6/10) :=
      mul_le_mul_of_nonneg_right hc1 (by norm_num)
    have h2 : s * (3/10) ≤ 1 * (3/10) := mul_le_mul_of_nonneg_right hs1 (by norm_num)
    have h3 : responseTimeScore t * (1/10) ≤ 1 * (1/10) :=
      mul_le_mul_of_nonneg_right hr1 (by norm_num)
    linarith
  · intro hRnil
    subst hRnil
    have hcap : calculate_capability_score A [] = 1 := by
      simp [calculate_capability_score]
    refine ⟨hcap, ?_⟩
    unfold combinedScore
    rw [hcap]
    ring
  · intro agents req k e he
    obtain ⟨a, -, -, rfl⟩ := mem_find_best_matches he
    rfl

/-- Witness for C1 at `A = R = []`, `s = 1/2`, `t = 0`. -/
theorem c1_combined_score_range_witness :
    (0 ≤ combinedScore [] [] (1/2) 0 ∧ combinedScore [] [] (1/2) 0 ≤ 12/10)
    ∧ (([] : List String) = [] → calculate_capability_score [] [] = 1 ∧
        combinedScore [] [] (1/2) 0 = 6/10 + (1/2) * (3/10) + responseTimeScore 0 * (1/10))
    ∧ (∀ (agents : List Agent) (req : Requirements) (k : ℕ),
        ∀ e ∈ find_best_matches agents req k,
          e.total_score = combinedScore (e.agent.capabilities.getD [])
            (req.capabilities.getD []) (e.agent.success_rate.getD (1/2))
            (e.agent.avg_response_time.getD 1000)) :=
  c1_combined_score_range [] [] (1/2) 0 one_half_pos.le one_half_lt_one.le (le_refl 0)

/-- C2: the heuristic complexity analysis is a pure function of the description
and requirements: score `1`, `+2` for more than one required capability, `+3`
for the multi-agent flag, `+1` per complexity keyword in the lowercased
description, capped at `10`, with decomposition required exactly when the score
reaches `6`; on the scenario description with two capabilities and
`multi_agent=true` the score is `9` and decomposition is required. -/
theorem c2_complexity_heuristic (d : String) (reqs : Requirements) :
    (analyzeComplexityHeuristic d reqs).complexity_score =
      min (1 + (if 1 < (reqs.capabilities.getD []).length then 2 else 0) +
        (if reqs.multi_agent.getD false then 3 else 0) +
        complexKeywords.countP (fun keyword => containsSubstr (pyLower d) keyword)) 10
    ∧ ((analyzeComplexityHeuristic d reqs).requires_decomposition = true ↔
        6 ≤ (analyzeComplexityHeuristic d reqs).complexity_score)
    ∧ (analyzeComplexityHeuristic "Comprehensive analysis of multiple detailed datasets"
        { capabilities := some ["data_analysis", "reporting"],
          multi_agent := some true }).complexity_score = 9
    ∧ (analyzeComplexityHeuristic "Comprehensive analysis of multiple detailed datasets"
        { capabilities := some ["data_analysis", "reporting"],
          multi_agent := some true }).requires_decomposition = true := by
  refine ⟨?_, ?_, by decide, by decide⟩
  · simp only [analyzeComplexityHeuristic, gt_iff_lt]
    split_ifs <;> omega
  · simp only [analyzeComplexityHeuristic, decide_eq_true_eq]

/-- C4 fails on the code: when the invoked oracle call raises or parses badly,
`analyze_task_complexity` returns the fixed conservative dict (score 5, no
decomposition), not the heuristic result — exhibited on the scenario input
where the heuristic scores 9 and requires decomposition. -/
theorem c4_counterexample :
    analyze_task_complexity (.failure "connection error")
        "Comprehensive analysis of multiple detailed datasets"
        { capabilities := some ["data_analysis", "reporting"], multi_agent := some true } ≠
      analyzeComplexityHeuristic "Comprehensive analysis of multiple detailed datasets"
        { capabilities := some ["data_analysis", "reporting"], multi_agent := some true }
    ∧ (analyze_task_complexity (.failure "connection error")
        "Comprehensive analysis of multiple detailed datasets"
        { capabilities := some ["data_analysis", "reporting"],
          multi_agent := some true }).complexity_score = 5
    ∧ (analyze_task_complexity (.failure "connection error")
        "Comprehensive analysis of multiple detailed datasets"
        { capabilities := some ["data_analysis", "reporting"],
          multi_agent := some true }).requires_decomposition = false
    ∧ (analyzeComplexityHeuristic "Comprehensive analysis of multiple detailed datasets"
        { capabilities := some ["data_analysis", "reporting"],
          multi_agent := some true }).complexity_score = 9
    ∧ (analyzeComplexityHeuristic "Comprehensive analysis of multiple detailed datasets"
        { capabilities := some ["data_analysis", "reporting"],
          multi_agent := some true }).requires_decomposition = true := by
  refine ⟨?_, by decide, by decide, by decide, by decide⟩
  intro h
  have := congrArg ComplexityAnalysis.complexity_score h
  revert this
  decide

/-- C4 amended: only the `llm is None` path falls back to the heuristic; a
failure of an invoked oracle call yields instead the fixed conservative
analysis (score 5, `requires_decomposition = false`, capabilities copied from
the request), which need not agree with the heuristic. -/
theorem c4_amended (d : String) (reqs : Requirements) (e : String) :
    analyze_task_complexity .unavailable d reqs = analyzeComplexityHeuristic d reqs
    ∧ analyze_task_complexity (.failure e) d reqs = complexityErrorFallback reqs
    ∧ (∀ a, analyze_task_complexity (.parsed a) d reqs = a)
    ∧ (complexityErrorFallback reqs).complexity_score = 5
    ∧ (complexityErrorFallback reqs).requires_decomposition = false
    ∧ (complexityErrorFallback reqs).required_capabilities = reqs.capabilities.getD [] :=
  ⟨rfl, rfl, fun _ => rfl, rfl, rfl, rfl⟩

/-! ### Claim C5 -/

theorem mem_get_available_agents {agents : List Agent} {a : Agent} :
    a ∈ get_available_agents agents ↔ a ∈ agents ∧ a.status = "idle" := by
  simp [get_available_agents, List.mem_filter, beq_iff_eq]

theorem find_best_agent_spec (agents : List Agent) (req : Requirements) :
    ((find_best_agent_for_task agents req).isSome ↔
      ∃ a ∈ agents, a.status = "idle" ∧
        agentTotalScore a (req.capabilities.getD []) > 3/10)
    ∧ ∀ a, find_best_agent_for_task agents req = some a →
        a ∈ agents ∧ a.status = "idle" ∧
          agentTotalScore a (req.capabilities.getD []) > 3/10 := by
  cases hext : get_available_agents agents with
  | nil =>
    have hval : find_best_agent_for_task agents req = none := by
      simp [find_best_agent_for_task, hext]
    rw [hval]
    constructor
    · simp only [Option.isSome_none, Bool.false_eq_true, false_iff]
      rintro ⟨a, ha, hidle, -⟩
      have : a ∈ get_available_agents agents := mem_get_available_agents.mpr ⟨ha, hidle⟩
      rw [hext] at this
      exact absurd this (List.not_mem_nil a)
    · intro a ha
      exact absurd ha (by simp)
  | cons a0 as0 =>
    rcases hs : sortByScoreDesc (idleMatches (a0 :: as0) req) with _ | ⟨m, ms⟩
    · exfalso
      have hM : idleMatches (a0 :: as0) req = [] := sortByScoreDesc_eq_nil_iff.mp hs
      have ha0 : a0 ∈ get_available_agents agents := by
        rw [hext]
        exact List.mem_cons_self _ _
      have ha0' := mem_get_available_agents.mp ha0
      have hmem : matchEntryFor (req.capabilities.getD []) a0 ∈ idleMatches (a0 :: as0) req :=
        mem_idleMatches.mpr ⟨a0, List.mem_cons_self _ _, ha0'.2, rfl⟩
      rw [hM] at hmem
      exact List.not_mem_nil _ hmem
    · have hfb : find_best_agent_for_task agents req =
          if m.total_score > 3/10 then some m.agent else none := by
        simp only [find_best_agent_for_task, find_best_matches, hext, hs,
          List.isEmpty_cons, Bool.false_eq_true, if_false, List.take_succ_cons,
          List.take_zero]
      obtain ⟨hm_mem, hm_max⟩ := sortByScoreDesc_head_max hs
      obtain ⟨am, ham_av, ham_idle, hm_eq⟩ := mem_idleMatches.mp hm_mem
      have ham : am ∈ agents ∧ am.status = "idle" := by
        apply mem_get_available_agents.mp
        rw [hext]
        exact ham_av
      have hm_score : m.total_score = agentTotalScore am (req.capabilities.getD []) := by
        rw [hm_eq]
        rfl
      constructor
      · constructor
        · intro hsome
          by_cases hgt : m.total_score > 3/10
          · exact ⟨am, ham.1, ham.2, hm_score ▸ hgt⟩
          · rw [hfb, if_neg hgt] at hsome
            simp at hsome
        · rintro ⟨a, ha, hidle, hscore⟩
          rw [hfb]
          have haav : a ∈ get_available_agents agents := mem_get_available_agents.mpr ⟨ha, hidle⟩
          rw [hext] at haav
          have hamem : matchEntryFor (req.capabilities.getD []) a ∈ idleMatches (a0 :: as0) req :=
            mem_idleMatches.mpr ⟨a, haav, hidle, rfl⟩
          have hle : agentTotalScore a (req.capabilities.getD []) ≤ m.total_score :=
            hm_max _ hamem
          rw [if_pos (lt_of_lt_of_le hscore hle)]
          simp
      · intro a hsome
        rw [hfb] at hsome
        by_cases hgt : m.total_score > 3/10
        · rw [if_pos hgt] at hsome
          have hma : m.agent = a := by
            simpa using hsome
          have hmam : m.agent = am := by rw [hm_eq]; rfl
          rw [← hma, hmam]
          exact ⟨ham.1, ham.2, hm_score ▸ hgt⟩
        · rw [if_neg hgt] at hsome
          exact absurd hsome (by simp)

/-- C5 fails on the code at the threshold itself: an idle agent whose combined
score is exactly `0.3` meets the minimum threshold but is not returned, because
the code requires the top score to strictly exceed `0.3`
(`matches[0][1] > 0.3`). -/
theorem c5_counterexample :
    agentTotalScore boundaryAgent ["data_analysis"] = 3/10
    ∧ boundaryAgent.status = "idle"
    ∧ find_best_agent_for_task [boundaryAgent] reqDataAnalysis = none := by
  have hscore : agentTotalScore boundaryAgent ["data_analysis"] = 3/10 := by
    show combinedScore [] ["data_analysis"] 1 10000 = 3/10
    norm_num [combinedScore, calculate_capability_score, responseTimeScore]
  refine ⟨hscore, rfl, ?_⟩
  have h0 : get_available_agents [boundaryAgent] = [boundaryAgent] := by
    simp [get_available_agents, boundaryAgent]
  have h1 : idleMatches [boundaryAgent] reqDataAnalysis =
      [matchEntryFor ["data_analysis"] boundaryAgent] := by
    simp [idleMatches, reqDataAnalysis, boundaryAgent, matchEntryFor]
  simp only [find_best_agent_for_task, h0, List.isEmpty_cons, Bool.false_eq_true, if_false,
    find_best_matches, h1, sortByScoreDesc, insertByScoreDesc, List.take_succ_cons,
    List.take_zero]
  rw [if_neg]
  show ¬((matchEntryFor ["data_analysis"] boundaryAgent).total_score > 3/10)
  rw [show (matchEntryFor ["data_analysis"] boundaryAgent).total_score =
    agentTotalScore boundaryAgent ["data_analysis"] from rfl, hscore]
  norm_num

/-- C5 amended: `find_best_agent_for_task` returns an agent exactly when the
best combined score among idle agents strictly exceeds the `0.3` threshold, and
a returned agent is an idle supplied agent scoring strictly above `0.3` (so
agents scoring below — or at — `0.3` are never selected); with default
performance metrics, scenario agent `A1` (`{data_analysis, reporting}`) scores
`0.66` and is selected for a `{data_analysis}` task while `A2`
(`{web_scraping}`) scores `0.24` and is not. -/
theorem c5_amended (agents : List Agent) (req : Requirements) :
    ((find_best_agent_for_task agents req).isSome ↔
      ∃ a ∈ agents, a.status = "idle" ∧
        agentTotalScore a (req.capabilities.getD []) > 3/10)
    ∧ (∀ a, find_best_agent_for_task agents req = some a →
        a ∈ agents ∧ a.status = "idle" ∧
          agentTotalScore a (req.capabilities.getD []) > 3/10)
    ∧ agentTotalScore agentA1 ["data_analysis"] = 66/100
    ∧ find_best_agent_for_task [agentA1] reqDataAnalysis = some agentA1
    ∧ agentTotalScore agentA2 ["data_analysis"] = 24/100
    ∧ find_best_agent_for_task [agentA2] reqDataAnalysis = none := by
  obtain ⟨h1, h2⟩ := find_best_agent_spec agents req
  have hA1 : agentTotalScore agentA1 ["data_analysis"] = 66/100 := by
    show combinedScore ["data_analysis", "reporting"] ["data_analysis"] (1/2) 1000 = 66/100
    rw [combinedScore, calculate_capability_score_eq _ _ (by decide) (by decide) 1 2 1
      (by decide) (by decide) (by decide)]
    norm_num [responseTimeScore]
  have hA2 : agentTotalScore agentA2 ["data_analysis"] = 24/100 := by
    show combinedScore ["web_scraping"] ["data_analysis"] (1/2) 1000 = 24/100
    rw [combinedScore, calculate_capability_score_eq _ _ (by decide) (by decide) 0 2 1
      (by decide) (by decide) (by decide)]
    norm_num [responseTimeScore]
  refine ⟨h1, h2, hA1, ?_, hA2, ?_⟩
  · have h0 : get_available_agents [agentA1] = [agentA1] := by
      simp [get_available_agents, agentA1]
    have hm : idleMatches [agentA1] reqDataAnalysis =
        [matchEntryFor ["data_analysis"] agentA1] := by
      simp [idleMatches, reqDataAnalysis, agentA1, matchEntryFor]
    simp only [find_best_agent_for_task, h0, List.isEmpty_cons, Bool.false_eq_true, if_false,
      find_best_matches, hm, sortByScoreDesc, insertByScoreDesc, List.take_succ_cons,
      List.take_zero]
    rw [if_pos]
    · rfl
    · show (matchEntryFor ["data_analysis"] agentA1).total_score > 3/10
      rw [show (matchEntryFor ["data_analysis"] agentA1).total_score =
        agentTotalScore agentA1 ["data_analysis"] from rfl, hA1]
      norm_num
  · have h0 : get_available_agents [agentA2] = [agentA2] := by
      simp [get_available_agents, agentA2]
    have hm : idleMatches [agentA2] reqDataAnalysis =
        [matchEntryFor ["data_analysis"] agentA2] := by
      simp [idleMatches, reqDataAnalysis, agentA2, matchEntryFor]
    simp only [find_best_agent_for_task, h0, List.isEmpty_cons, Bool.false_eq_true, if_false,
      find_best_matches, hm, sortByScoreDesc, insertByScoreDesc, List.take_succ_cons,
      List.take_zero]
    rw [if_neg]
    show ¬((matchEntryFor ["data_analysis"] agentA2).total_score > 3/10)
    rw [show (matchEntryFor ["data_analysis"] agentA2).total_score =
      agentTotalScore agentA2 ["data_analysis"] from rfl, hA2]
    norm_num

/-- Witness instantiating C5's amended statement at the scenario agent pool. -/
theorem c5_amended_witness :
    ((find_best_agent_for_task [agentA1, agentA2] reqDataAnalysis).isSome ↔
      ∃ a ∈ [agentA1, agentA2], a.status = "idle" ∧
        agentTotalScore a (reqDataAnalysis.capabilities.getD []) > 3/10)
    ∧ (∀ a, find_best_agent_for_task [agentA1, agentA2] reqDataAnalysis = some a →
        a ∈ [agentA1, agentA2] ∧ a.status = "idle" ∧
          agentTotalScore a (reqDataAnalysis.capabilities.getD []) > 3/10)
    ∧ agentTotalScore agentA1 ["data_analysis"] = 66/100
    ∧ find_best_agent_for_task [agentA1] reqDataAnalysis = some agentA1
    ∧ agentTotalScore agentA2 ["data_analysis"] = 24/100
    ∧ find_best_agent_for_task [agentA2] reqDataAnalysis = none :=
  c5_amended [agentA1, agentA2] reqDataAnalysis

/-! ### Claim C7 -/

theorem countP_map_name_preserving (agents : List Agent) (name : String) (f : Agent → Agent)
    (hf : ∀ a, (f a).name = a.name) :
    ((agents.map fun a => if a.name == name then f a else a).filter
      fun a => a.name == name).length = (agents.filter fun a => a.name == name).length := by
  induction agents with
  | nil => rfl
  | cons b bs ih =>
    simp only [List.map_cons, List.filter_cons]
    by_cases hb : b.name = name
    · have hbb : (b.name == name) = true := beq_iff_eq.mpr hb
      have hfb : ((f b).name == name) = true := beq_iff_eq.mpr (by rw [hf]; exact hb)
      simp only [hbb, if_true, hfb, List.length_cons, ih]
    · have hbb : (b.name == name) = false := by
        simp [hb]
      simp only [hbb, Bool.false_eq_true, if_false, ih]

theorem register_agent_count (agents : List Agent) (now : ℕ) (name description : String)
    (capabilities : List String) (resource_requirements : List (String × RVal))
    (h : (agents.filter fun a => a.name == name).length ≤ 1) :
    ((register_agent agents now name description capabilities resource_requirements).2.filter
      fun a => a.name == name).length = 1 := by
  simp only [register_agent]
  cases hf : agents.find? (fun a => a.name == name) with
  | some existing_agent =>
    simp only []
    have hpres := countP_map_name_preserving agents name
      (fun a => { a with
        description := description
        capabilities := some capabilities
        resource_requirements := resource_requirements
        status := "idle"
        last_heartbeat := some now }) (fun a => rfl)
    rw [hpres]
    have hmem : existing_agent ∈ agents := List.mem_of_find?_eq_some hf
    have hpred := List.find?_some hf
    have hmem_f : existing_agent ∈ agents.filter fun a => a.name == name :=
      List.mem_filter.mpr ⟨hmem, hpred⟩
    have hge : 0 < (agents.filter fun a => a.name == name).length :=
      List.length_pos_of_mem hmem_f
    omega
  | none =>
    simp only []
    rw [List.filter_append]
    have hempty : agents.filter (fun a => a.name == name) = [] := by
      apply List.filter_eq_nil_iff.mpr
      intro a ha
      have := List.find?_eq_none.mp hf a ha
      simpa using this
    rw [hempty]
    simp [beq_iff_eq]

theorem register_agent_latest (agents : List Agent) (now : ℕ) (name description : String)
    (capabilities : List String) (resource_requirements : List (String × RVal)) :
    ∀ a ∈ (register_agent agents now name description capabilities resource_requirements).2,
      a.name = name →
        a.description = description ∧ a.capabilities = some capabilities ∧
        a.resource_requirements = resource_requirements ∧
        a.status = "idle" ∧ a.last_heartbeat = some now := by
  simp only [register_agent]
  cases hf : agents.find? (fun a => a.name == name) with
  | some existing_agent =>
    simp only [List.mem_map]
    rintro a ⟨b, hb, rfl⟩ hname
    by_cases hbn : (b.name == name) = true
    · simp [hbn]
    · rw [if_neg (by simpa using hbn)] at hname ⊢
      exact absurd (beq_iff_eq.mpr hname) hbn
  | none =>
    intro a ha hname
    rcases List.mem_append.mp ha with hmem | hmem
    · have := List.find?_eq_none.mp hf a hmem
      rw [hname] at this
      simp at this
    · have ha_eq : a =
        { id := freshAgentId agents
          name := name
          description := description
          capabilities := some capabilities
          resource_requirements := resource_requirements
          status := "idle"
          success_rate := some (1/2)
          avg_response_time := some 1000
          last_heartbeat := some now } := by
        simpa using hmem
      rw [ha_eq]
      exact ⟨rfl, rfl, rfl, rfl, rfl⟩

/-- C7: registration is an idempotent upsert keyed by name: starting from a
store where the (unique-indexed) name occurs at most once, registering the same
name twice leaves exactly one record for it, carrying the description,
capabilities and resource profile of the latest call, with status reset to
`idle` and the heartbeat stamped. -/
theorem c7_register_idempotent (agents : List Agent) (now₁ now₂ : ℕ)
    (name d₁ d₂ : String) (c₁ c₂ : List String) (r₁ r₂ : List (String × RVal))
    (h : (agents.filter fun a => a.name == name).length ≤ 1) :
    (((register_agent (register_agent agents now₁ name d₁ c₁ r₁).2 now₂ name d₂ c₂ r₂).2.filter
      fun a => a.name == name).length = 1)
    ∧ ∀ a ∈ (register_agent (register_agent agents now₁ name d₁ c₁ r₁).2 now₂ name d₂ c₂ r₂).2,
        a.name = name →
          a.description = d₂ ∧ a.capabilities = some c₂ ∧
          a.resource_requirements = r₂ ∧ a.status = "idle" ∧ a.last_heartbeat = some now₂ := by
  have h1 := register_agent_count agents now₁ name d₁ c₁ r₁ h
  exact ⟨register_agent_count _ now₂ name d₂ c₂ r₂ (le_of_eq h1),
    register_agent_latest _ now₂ name d₂ c₂ r₂⟩

/-- Witness for C7: double registration of `"scraper"` into an empty store. -/
theorem c7_register_idempotent_witness :
    ((((register_agent (register_agent [] 1 "scraper" "v1" ["web"] []).2
        2 "scraper" "v2" ["web", "pdf"] []).2).filter
      fun a => a.name == "scraper").length = 1)
    ∧ ∀ a ∈ (register_agent (register_agent [] 1 "scraper" "v1" ["web"] []).2
        2 "scraper" "v2" ["web", "pdf"] []).2,
        a.name = "scraper" →
          a.description = "v2" ∧ a.capabilities = some ["web", "pdf"] ∧
          a.resource_requirements = [] ∧ a.status = "idle" ∧ a.last_heartbeat = some 2 :=
  c7_register_idempotent [] 1 2 "scraper" "v1" "v2" ["web"] ["web", "pdf"] [] []
    (by decide)

/-! ### Claim C8 -/

/-- C8 fails on the code: `update_agent_status` stamps `last_heartbeat =
utcnow()` on every successful status write (registry.py line 198), so a plain
idle→busy flip does change the heartbeat timestamp. -/
theorem c8_counterexample :
    (update_agent_status [{ id := 1, name := "worker", status := "idle", last_heartbeat := some 0 }] 5 1 "busy" none).2 =
      [{ id := 1, name := "worker", status := "busy", last_heartbeat := some 5 }]
    ∧ (update_agent_status [{ id := 1, name := "worker", status := "idle", last_heartbeat := some 0 }] 5 1 "busy" none).1 = true
    ∧ (some 5 : Option ℕ) ≠ some 0 := by
  refine ⟨?_, rfl, by decide⟩
  rfl

/-- C8 amended: both mutation paths refresh `last_heartbeat`: a successful
`update_agent_status` write stamps the mutated agent's `last_heartbeat` (and
its status) to the current time, and `heartbeat` stamps it as well; agents with
a different id are untouched by either. -/
theorem c8_amended (agents : List Agent) (now agent_id : ℕ) (status : String)
    (perf : Option PerformanceUpdate) :
    (∀ a ∈ (update_agent_status agents now agent_id status perf).2,
        a.id = agent_id → a.last_heartbeat = some now ∧ a.status = status)
    ∧ (∀ a ∈ (update_agent_status agents now agent_id status perf).2,
        a.id ≠ agent_id → a ∈ agents)
    ∧ (∀ a ∈ (heartbeat agents now agent_id).2, a.id = agent_id →
        a.last_heartbeat = some now)
    ∧ (∀ a ∈ (heartbeat agents now agent_id).2, a.id ≠ agent_id → a ∈ agents) := by
  refine ⟨?_, ?_, ?_, ?_⟩
  · intro a ha hid
    simp only [update_agent_status] at ha
    by_cases hany : (agents.any fun b => b.id == agent_id) = true
    · rw [if_pos hany] at ha
      simp only [List.mem_map] at ha
      obtain ⟨b, hb, rfl⟩ := ha
      by_cases hbid : (b.id == agent_id) = true
      · simp only [hbid, if_true]
        cases perf with
        | none => exact ⟨rfl, rfl⟩
        | some p => exact ⟨rfl, rfl⟩
      · rw [if_neg (by simpa using hbid)] at hid ⊢
        exact absurd (beq_iff_eq.mpr hid) hbid
    · rw [if_neg hany] at ha
      exfalso
      apply hany
      exact List.any_eq_true.mpr ⟨a, ha, beq_iff_eq.mpr hid⟩
  · intro a ha hid
    simp only [update_agent_status] at ha
    by_cases hany : (agents.any fun b => b.id == agent_id) = true
    · rw [if_pos hany] at ha
      simp only [List.mem_map] at ha
      obtain ⟨b, hb, rfl⟩ := ha
      by_cases hbid : (b.id == agent_id) = true
      · exfalso
        apply hid
        simp only [hbid, if_true]
        cases perf with
        | none => exact beq_iff_eq.mp hbid
        | some p => exact beq_iff_eq.mp hbid
      · rw [if_neg (by simpa using hbid)]
        exact hb
    · rw [if_neg hany] at ha
      exact ha
  · intro a ha hid
    simp only [heartbeat, List.mem_map] at ha
    obtain ⟨b, hb, rfl⟩ := ha
    by_cases hbid : (b.id == agent_id) = true
    · simp only [hbid, if_true]
    · rw [if_neg (by simpa using hbid)] at hid ⊢
      exact absurd (beq_iff_eq.mpr hid) hbid
  · intro a ha hid
    simp only [heartbeat, List.mem_map] at ha
    obtain ⟨b, hb, rfl⟩ := ha
    by_cases hbid : (b.id == agent_id) = true
    · exfalso
      apply hid
      simp only [hbid, if_true]
      exact beq_iff_eq.mp hbid
    · rw [if_neg (by simpa using hbid)]
      exact hb

/-- Witness instantiating C8's amended statement on a two-agent store. -/
theorem c8_amended_witness :
    (∀ a ∈ (update_agent_status [{ id := 1, name := "w1", status := "idle" }, { id := 2, name := "w2", status := "idle" }] 9 1 "busy" none).2,
        a.id = 1 → a.last_heartbeat = some 9 ∧ a.status = "busy")
    ∧ (∀ a ∈ (update_agent_status [{ id := 1, name := "w1", status := "idle" }, { id := 2, name := "w2", status := "idle" }] 9 1 "busy" none).2,
        a.id ≠ 1 → a ∈ [{ id := 1, name := "w1", status := "idle" }, { id := 2, name := "w2", status := "idle" }])
    ∧ (∀ a ∈ (heartbeat [{ id := 1, name := "w1", status := "idle" }, { id := 2, name := "w2", status := "idle" }] 9 1).2, a.id = 1 →
        a.last_heartbeat = some 9)
    ∧ (∀ a ∈ (heartbeat [{ id := 1, name := "w1", status := "idle" }, { id := 2, name := "w2", status := "idle" }] 9 1).2, a.id ≠ 1 →
        a ∈ [{ id := 1, name := "w1", status := "idle" }, { id := 2, name := "w2", status := "idle" }]) :=
  c8_amended [{ id := 1, name := "w1", status := "idle" }, { id := 2, name := "w2", status := "idle" }] 9 1 "busy" none

/-! ### Claim C3 -/

theorem lookupConflict_map_update (l : List (String × ConflictRecord)) (cid : String)
    (f : ConflictRecord → ConflictRecord) :
    lookupConflict (l.map fun p => if p.1 == cid then (p.1, f p.2) else p) cid =
      (lookupConflict l cid).map f := by
  induction l with
  | nil => rfl
  | cons q qs ih =>
    obtain ⟨k, v⟩ := q
    by_cases hk : k = cid
    · subst hk
      simp [lookupConflict]
    · simp [lookupConflict, hk] at ih ⊢
      exact ih

/-- C3 fails on the code: when the dispatched strategy raises — as
`_resolve_by_expert_decision` does via `max()` on an empty agent list — the
`except` handler of `resolve_conflict` returns a failure dict without touching
the record, so the conflict is still `detected` after the call returns. -/
theorem c3_counterexample :
    resolve_by_expert_decision [] (.error "Request timeout") =
      .error "max() arg is an empty sequence"
    ∧ (resolve_conflict [("c1", { status := "detected", involved_agents := [7] })] "c1" 100
        (resolve_by_expert_decision [] (.error "Request timeout"))).2 =
      [("c1", { status := "detected", involved_agents := [7] })]
    ∧ lookupConflict (resolve_conflict [("c1", { status := "detected", involved_agents := [7] })]
        "c1" 100 (resolve_by_expert_decision [] (.error "Request timeout"))).2 "c1" =
      some { status := "detected", involved_agents := [7] }
    ∧ (resolve_conflict [("c1", { status := "detected", involved_agents := [7] })] "c1" 100
        (resolve_by_expert_decision [] (.error "Request timeout"))).1 =
      { success := some false, error := some "max() arg is an empty sequence" } :=
  ⟨rfl, rfl, rfl, rfl⟩

/-- C3 amended: when the dispatched strategy returns a result dict, the
conflict ends `resolved` (strategy reported success) or `failed` — never
`detected`; but when the strategy raises, `resolve_conflict` returns a failure
dict and leaves the record untouched, so it stays `detected`. -/
theorem c3_amended (active : List (String × ConflictRecord)) (cid : String) (now : ℕ)
    (outcome : Except String StratResult) (c : ConflictRecord)
    (h : lookupConflict active cid = some c) :
    (∀ r, outcome = .ok r →
      lookupConflict (resolve_conflict active cid now outcome).2 cid =
        some (if r.success = some true
          then { c with status := "resolved", resolution := some r, resolved_at := some now }
          else { c with status := "failed", resolution_error := r.error })
      ∧ (resolve_conflict active cid now outcome).1 = r)
    ∧ (∀ e, outcome = .error e →
      (resolve_conflict active cid now outcome).2 = active
      ∧ (resolve_conflict active cid now outcome).1 =
          { success := some false, error := some e }) := by
  constructor
  · rintro r rfl
    have hmap := lookupConflict_map_update active cid (fun x =>
      if r.success = some true
      then { x with status := "resolved", resolution := some r, resolved_at := some now }
      else { x with status := "failed", resolution_error := r.error })
    rw [h] at hmap
    constructor
    · simp only [resolve_conflict, h]
      exact hmap
    · simp [resolve_conflict, h]
  · rintro e rfl
    refine ⟨?_, ?_⟩ <;> simp [resolve_conflict, h]

/-- Witness for C3's amended statement: a successful strategy result on a
one-conflict store. -/
theorem c3_amended_witness :
    (∀ r, (Except.ok { success := some true, method := some "negotiation" } :
        Except String StratResult) = .ok r →
      lookupConflict (resolve_conflict [("c2", { status := "detected" })] "c2" 7
        (.ok { success := some true, method := some "negotiation" })).2 "c2" =
        some (if r.success = some true
          then { ({ status := "detected" } : ConflictRecord) with status := "resolved", resolution := some r, resolved_at := some 7 }
          else { ({ status := "detected" } : ConflictRecord) with status := "failed", resolution_error := r.error })
      ∧ (resolve_conflict [("c2", { status := "detected" })] "c2" 7
          (.ok { success := some true, method := some "negotiation" })).1 = r)
    ∧ (∀ e, (Except.ok { success := some true, method := some "negotiation" } :
        Except String StratResult) = .error e →
      (resolve_conflict [("c2", { status := "detected" })] "c2" 7
        (.ok { success := some true, method := some "negotiation" })).2 =
        [("c2", { status := "detected" })]
      ∧ (resolve_conflict [("c2", { status := "detected" })] "c2" 7
          (.ok { success := some true, method := some "negotiation" })).1 =
        { success := some false, error := some e }) :=
  c3_amended [("c2", { status := "detected" })] "c2" 7
    (.ok { success := some true, method := some "negotiation" }) { status := "detected" } rfl

/-! ### Claim C9 -/

/-- C9: after a call to `request_response` returns — whether a matching
response arrived or the caller-supplied timeout elapsed — the waiter for its
correlation id is gone from `pending_requests` (the key set is exactly
restored, so no leak on either return path and no delivery to a late
`handle_response`), and a timeout produces the distinguished dict
`{success: false, error: 'Request timeout', correlation_id: cid}` rather than
an agent's response.  The final conjunct records the behaviour of the third
path, on which the call does not return but raises: `send_message` is awaited
before the `try`/`finally`, so a raising send leaves the waiter registered. -/
theorem c9_request_response (pending : List String) (cid : String) (outcome : WaitOutcome)
    (hfresh : cid ∉ pending) :
    (∀ m, outcome = .response m →
        (request_response pending cid outcome).1 = .ok m
        ∧ (request_response pending cid outcome).2 = pending
        ∧ cid ∉ (request_response pending cid outcome).2
        ∧ handle_response (request_response pending cid outcome).2 (some cid) = false)
    ∧ (outcome = .timedOut →
        (request_response pending cid outcome).1 = .ok (timeoutResponse cid)
        ∧ (request_response pending cid outcome).2 = pending
        ∧ cid ∉ (request_response pending cid outcome).2
        ∧ handle_response (request_response pending cid outcome).2 (some cid) = false)
    ∧ lookupPVal (timeoutResponse cid) "success" = some (.pbool false)
    ∧ lookupPVal (timeoutResponse cid) "error" = some (.pstr "Request timeout")
    ∧ lookupPVal (timeoutResponse cid) "correlation_id" = some (.pstr cid)
    ∧ (∀ e, outcome = .sendFailure e →
        (request_response pending cid outcome).1 = .error e
        ∧ (request_response pending cid outcome).2 = pending ++ [cid]) := by
  have hreg : (if cid ∈ pending then pending else pending ++ [cid]) = pending ++ [cid] :=
    if_neg hfresh
  have herase : (pending ++ [cid]).erase cid = pending := by
    rw [List.erase_append_right _ hfresh, List.erase_cons_head, List.append_nil]
  have hcontains : pending.contains cid = false := by
    simpa [handle_response] using hfresh
  refine ⟨?_, ?_, rfl, rfl, rfl, ?_⟩
  · rintro m rfl
    have hstate : (request_response pending cid (.response m)).2 = pending := by
      simp only [request_response, hreg, herase]
    exact ⟨rfl, hstate, by rw [hstate]; exact hfresh,
      by rw [hstate]; simpa [handle_response] using hfresh⟩
  · rintro rfl
    have hstate : (request_response pending cid .timedOut).2 = pending := by
      simp only [request_response, hreg, herase]
    exact ⟨rfl, hstate, by rw [hstate]; exact hfresh,
      by rw [hstate]; simpa [handle_response] using hfresh⟩
  · rintro e rfl
    refine ⟨rfl, ?_⟩
    simp only [request_response, hreg]

/-- Witness for C9 at an empty pending map and a timed-out exchange. -/
theorem c9_request_response_witness :
    (∀ m, WaitOutcome.timedOut = .response m →
        (request_response [] "rr-1" .timedOut).1 = .ok m
        ∧ (request_response [] "rr-1" .timedOut).2 = []
        ∧ "rr-1" ∉ (request_response [] "rr-1" .timedOut).2
        ∧ handle_response (request_response [] "rr-1" .timedOut).2 (some "rr-1") = false)
    ∧ (WaitOutcome.timedOut = .timedOut →
        (request_response [] "rr-1" .timedOut).1 = .ok (timeoutResponse "rr-1")
        ∧ (request_response [] "rr-1" .timedOut).2 = []
        ∧ "rr-1" ∉ (request_response [] "rr-1" .timedOut).2
        ∧ handle_response (request_response [] "rr-1" .timedOut).2 (some "rr-1") = false)
    ∧ lookupPVal (timeoutResponse "rr-1") "success" = some (.pbool false)
    ∧ lookupPVal (timeoutResponse "rr-1") "error" = some (.pstr "Request timeout")
    ∧ lookupPVal (timeoutResponse "rr-1") "correlation_id" = some (.pstr "rr-1")
    ∧ (∀ e, WaitOutcome.timedOut = .sendFailure e →
        (request_response [] "rr-1" .timedOut).1 = .error e
        ∧ (request_response [] "rr-1" .timedOut).2 = [] ++ ["rr-1"]) :=
  c9_request_response [] "rr-1" .timedOut (List.not_mem_nil "rr-1")

/-! ### Helper lemmas for the resource-contention detector (claims C6, C10) -/

theorem groupFor_addResourceUsage (usage : List (String × List (ℕ × RVal))) (k rt : String)
    (v : ℕ × RVal) :
    groupFor (addResourceUsage usage k v) rt =
      if rt = k then groupFor usage rt ++ [v] else groupFor usage rt := by
  induction usage with
  | nil =>
    by_cases h : rt = k
    · subst h
      simp [addResourceUsage, groupFor]
    · simp [addResourceUsage, groupFor, h, Ne.symm h]
  | cons q qs ih =>
    obtain ⟨k0, l0⟩ := q
    by_cases hk0 : k0 = k
    · subst hk0
      by_cases hrt : rt = k0
      · subst hrt
        simp [addResourceUsage, groupFor]
      · have hrt' : ¬k0 = rt := Ne.symm hrt
        simp [addResourceUsage, groupFor, hrt, hrt']
    · by_cases hrt : rt = k0
      · subst hrt
        have hk0' : ¬rt = k := hk0
        simp [addResourceUsage, groupFor, hk0, hk0']
      · have hrt' : ¬k0 = rt := Ne.symm hrt
        simp [addResourceUsage, groupFor, hk0, hrt, hrt', ih]

theorem groupFor_foldl_requirements (reqs : List (String × RVal)) (aid : ℕ)
    (usage : List (String × List (ℕ × RVal))) (rt : String) :
    groupFor (reqs.foldl (fun u p => addResourceUsage u p.1 (aid, p.2)) usage) rt =
      groupFor usage rt ++
        (reqs.filterMap fun p => if p.1 = rt then some (aid, p.2) else none) := by
  induction reqs generalizing usage with
  | nil => simp
  | cons p ps ih =>
    simp only [List.foldl_cons, List.filterMap_cons]
    rw [ih]
    by_cases hp : p.1 = rt
    · rw [groupFor_addResourceUsage, if_pos hp.symm, if_pos hp]
      simp [List.append_assoc]
    · rw [groupFor_addResourceUsage, if_neg (fun h => hp h.symm), if_neg hp]

theorem groupFor_foldl_agents (agents : List Agent)
    (usage : List (String × List (ℕ × RVal))) (rt : String) :
    groupFor (agents.foldl
      (fun u agent => agent.resource_requirements.foldl
        (fun u p => addResourceUsage u p.1 (agent.id, p.2)) u) usage) rt =
      groupFor usage rt ++ entriesFor agents rt := by
  induction agents generalizing usage with
  | nil => simp [entriesFor]
  | cons a as ih =>
    simp only [List.foldl_cons]
    rw [ih, groupFor_foldl_requirements]
    simp [entriesFor, entriesOfAgent, List.append_assoc]

theorem groupFor_buildResourceUsage (agents : List Agent) (rt : String) :
    groupFor (buildResourceUsage agents) rt = entriesFor agents rt := by
  have h := groupFor_foldl_agents agents [] rt
  simpa [buildResourceUsage, groupFor] using h

theorem keys_addResourceUsage (usage : List (String × List (ℕ × RVal))) (k : String)
    (v : ℕ × RVal) :
    (addResourceUsage usage k v).map Prod.fst =
      if k ∈ usage.map Prod.fst then usage.map Prod.fst else usage.map Prod.fst ++ [k] := by
  induction usage with
  | nil => simp [addResourceUsage]
  | cons q qs ih =>
    obtain ⟨k0, l0⟩ := q
    by_cases hk0 : k0 = k
    · subst hk0
      simp [addResourceUsage]
    · have hk0' : ¬k0 == k := by simp [hk0]
      by_cases hmem : k ∈ qs.map Prod.fst
      · simp [addResourceUsage, hk0', hmem, ih, Ne.symm hk0]
      · simp [addResourceUsage, hk0', hmem, ih, Ne.symm hk0]

theorem keys_nodup_addResourceUsage {usage : List (String × List (ℕ × RVal))} {k : String}
    {v : ℕ × RVal} (h : (usage.map Prod.fst).Nodup) :
    ((addResourceUsage usage k v).map Prod.fst).Nodup := by
  rw [keys_addResourceUsage]
  by_cases hmem : k ∈ usage.map Prod.fst
  · simpa [hmem] using h
  · simp only [hmem, if_false, Bool.false_eq_true]
    rw [List.nodup_append]
    exact ⟨h, List.nodup_singleton k, by simpa using fun hk => hmem hk⟩

theorem keys_nodup_foldl_requirements (reqs : List (String × RVal)) (aid : ℕ)
    {usage : List (String × List (ℕ × RVal))} (h : (usage.map Prod.fst).Nodup) :
    (((reqs.foldl (fun u p => addResourceUsage u p.1 (aid, p.2)) usage)).map Prod.fst).Nodup := by
  induction reqs generalizing usage with
  | nil => exact h
  | cons p ps ih =>
    simp only [List.foldl_cons]
    exact ih (keys_nodup_addResourceUsage h)

theorem buildResourceUsage_keys_nodup (agents : List Agent) :
    ((buildResourceUsage agents).map Prod.fst).Nodup := by
  have hgen : ∀ (usage : List (String × List (ℕ × RVal))), (usage.map Prod.fst).Nodup →
      ((agents.foldl
        (fun u agent => agent.resource_requirements.foldl
          (fun u p => addResourceUsage u p.1 (agent.id, p.2)) u) usage).map Prod.fst).Nodup := by
    induction agents with
    | nil => exact fun usage h => h
    | cons a as ih =>
      intro usage h
      simp only [List.foldl_cons]
      exact ih _ (keys_nodup_foldl_requirements _ _ h)
  exact hgen [] (by simp)

theorem groupFor_eq_of_mem {usage : List (String × List (ℕ × RVal))} {rt : String}
    {ul : List (ℕ × RVal)} (hnd : (usage.map Prod.fst).Nodup) (hmem : (rt, ul) ∈ usage) :
    groupFor usage rt = ul := by
  induction usage with
  | nil => exact absurd hmem (List.not_mem_nil _)
  | cons q qs ih =>
    obtain ⟨k0, l0⟩ := q
    simp only [List.map_cons, List.nodup_cons] at hnd
    rcases List.mem_cons.mp hmem with heq | htail
    · injection heq with h1 h2
      subst h1
      subst h2
      simp [groupFor]
    · have hrt : rt ∈ qs.map Prod.fst := by
        exact List.mem_map.mpr ⟨(rt, ul), htail, rfl⟩
      have hk0 : ¬k0 == rt := by
        simp only [beq_iff_eq]
        intro hk
        exact hnd.1 (hk ▸ hrt)
      simp only [groupFor, hk0, Bool.false_eq_true, if_false]
      exact ih hnd.2 htail

theorem mem_of_groupFor {usage : List (String × List (ℕ × RVal))} {rt : String}
    (hne : groupFor usage rt ≠ []) : (rt, groupFor usage rt) ∈ usage := by
  induction usage with
  | nil => exact absurd rfl hne
  | cons q qs ih =>
    obtain ⟨k0, l0⟩ := q
    by_cases hk0 : (k0 == rt) = true
    · have : k0 = rt := beq_iff_eq.mp hk0
      subst this
      simp [groupFor]
    · simp only [groupFor, hk0, Bool.false_eq_true, if_false] at hne ⊢
      exact List.mem_cons_of_mem _ (ih hne)

theorem mem_detect_resource_conflicts {agents : List Agent} {c : ResourceConflict} :
    c ∈ detect_resource_conflicts agents ↔
      ∃ g ∈ buildResourceUsage agents, g.2.length > 1 ∧ 1 < totalNumericRequirement g.2 ∧
        c = mkResourceConflict g.1 g.2 := by
  simp only [detect_resource_conflicts, List.mem_filterMap]
  constructor
  · rintro ⟨g, hg, hfg⟩
    split_ifs at hfg with h1 h2 h3
    · refine ⟨g, hg, h1, h2, ?_⟩
      rw [(Option.some.inj hfg).symm]
      simp [mkResourceConflict, h3]
    · refine ⟨g, hg, h1, h2, ?_⟩
      rw [(Option.some.inj hfg).symm]
      simp [mkResourceConflict, h3]
  · rintro ⟨g, hg, h1, h2, rfl⟩
    refine ⟨g, hg, ?_⟩
    rw [if_pos h1, if_pos h2]
    rfl

theorem totalNumericRequirement_append (l1 l2 : List (ℕ × RVal)) :
    totalNumericRequirement (l1 ++ l2) =
      totalNumericRequirement l1 + totalNumericRequirement l2 := by
  simp [totalNumericRequirement, List.filterMap_append]

theorem totalNumericRequirement_entriesOfAgent (a : Agent) (rt : String) :
    totalNumericRequirement (entriesOfAgent rt a) =
      (a.resource_requirements.filterMap fun p =>
        if p.1 = rt then
          match p.2 with
          | .num q => some q
          | .other _ => none
        else none).sum := by
  unfold entriesOfAgent totalNumericRequirement
  induction a.resource_requirements with
  | nil => rfl
  | cons p ps ih =>
    obtain ⟨k, v⟩ := p
    by_cases hk : k = rt
    · subst hk
      cases v with
      | num q => simp [List.filterMap_cons, ih]
      | other s => simp [List.filterMap_cons, ih]
    · simp [List.filterMap_cons, hk, ih]

theorem totalNumericRequirement_entriesFor (agents : List Agent) (rt : String) :
    totalNumericRequirement (entriesFor agents rt) = sumNumericRequirement agents rt := by
  induction agents with
  | nil => rfl
  | cons a as ih =>
    have h1 : entriesFor (a :: as) rt = entriesOfAgent rt a ++ entriesFor as rt := by
      simp [entriesFor]
    rw [h1, totalNumericRequirement_append, totalNumericRequirement_entriesOfAgent, ih]
    simp [sumNumericRequirement]

theorem length_entriesOfAgent (a : Agent) (rt : String) :
    (entriesOfAgent rt a).length = a.resource_requirements.countP (fun p => p.1 == rt) := by
  unfold entriesOfAgent
  induction a.resource_requirements with
  | nil => rfl
  | cons p ps ih =>
    by_cases hk : p.1 = rt
    · simp [List.filterMap_cons, List.countP_cons, hk, ih]
    · simp [List.filterMap_cons, List.countP_cons, hk, ih]

theorem countP_key_le_one {l : List (String × RVal)} (h : (l.map Prod.fst).Nodup)
    (rt : String) : l.countP (fun p => p.1 == rt) ≤ 1 := by
  induction l with
  | nil => simp
  | cons p ps ih =>
    simp only [List.map_cons, List.nodup_cons] at h
    rw [List.countP_cons]
    by_cases hk : (p.1 == rt) = true
    · have hrt : rt = p.1 := (beq_iff_eq.mp hk).symm
      subst hrt
      have h0 : ps.countP (fun q => q.1 == p.1) = 0 := by
        rw [List.countP_eq_zero]
        intro q hq hc
        have hqm : q.1 ∈ ps.map Prod.fst := List.mem_map.mpr ⟨q, hq, rfl⟩
        rw [beq_iff_eq.mp hc] at hqm
        exact h.1 hqm
      rw [h0]
      simp [hk]
    · simp only [hk, Bool.false_eq_true, if_false]
      have := ih h.2
      omega

theorem length_entriesFor_eq_count (agents : List Agent) (rt : String)
    (hnd : ∀ a ∈ agents, (a.resource_requirements.map Prod.fst).Nodup) :
    (entriesFor agents rt).length = countAgentsRequiring agents rt := by
  induction agents with
  | nil => rfl
  | cons a as ih =>
    have hihs := ih (fun x hx => hnd x (List.mem_cons_of_mem _ hx))
    have ha := hnd a (List.mem_cons_self _ _)
    simp only [entriesFor, List.map_cons, List.flatten_cons, List.length_append,
      countAgentsRequiring, List.filter_cons] at hihs ⊢
    rw [length_entriesOfAgent]
    by_cases hreq : (a.resource_requirements.any fun p => p.1 == rt) = true
    · have hle := countP_key_le_one ha rt
      have hpos : 0 < a.resource_requirements.countP (fun p => p.1 == rt) := by
        obtain ⟨p, hp, hp2⟩ := List.any_eq_true.mp hreq
        exact List.countP_pos_iff.mpr ⟨p, hp, hp2⟩
      rw [if_pos hreq]
      simp only [List.length_cons]
      omega
    · have h0 : a.resource_requirements.countP (fun p => p.1 == rt) = 0 := by
        rw [List.countP_eq_zero]
        intro p hp hc
        exact hreq (List.any_eq_true.mpr ⟨p, hp, hc⟩)
      rw [h0, if_neg hreq]
      omega

theorem detect_for_resource_iff (agents : List Agent) (rt : String)
    (hnd : ∀ a ∈ agents, (a.resource_requirements.map Prod.fst).Nodup) :
    (∃ c ∈ detect_resource_conflicts agents, c.resource_type = rt) ↔
      2 ≤ countAgentsRequiring agents rt ∧ 1 < sumNumericRequirement agents rt := by
  constructor
  · rintro ⟨c, hc, hcrt⟩
    obtain ⟨g, hg, h1, h2, rfl⟩ := mem_detect_resource_conflicts.mp hc
    have hg1 : g.1 = rt := hcrt
    subst hg1
    have hgrp : groupFor (buildResourceUsage agents) g.1 = g.2 :=
      groupFor_eq_of_mem (buildResourceUsage_keys_nodup agents) hg
    have hent : g.2 = entriesFor agents g.1 := by
      rw [← hgrp, groupFor_buildResourceUsage]
    constructor
    · have hlen := length_entriesFor_eq_count agents g.1 hnd
      rw [← hent] at hlen
      omega
    · have htot := totalNumericRequirement_entriesFor agents g.1
      rw [← hent] at htot
      rw [← htot]
      exact h2
  · rintro ⟨hcount, hsum⟩
    have hlen : 1 < (entriesFor agents rt).length := by
      rw [length_entriesFor_eq_count agents rt hnd]
      omega
    have hne : entriesFor agents rt ≠ [] := by
      intro h
      rw [h] at hlen
      simp at hlen
    have hgrp : groupFor (buildResourceUsage agents) rt = entriesFor agents rt :=
      groupFor_buildResourceUsage agents rt
    have hmem : (rt, entriesFor agents rt) ∈ buildResourceUsage agents := by
      have hm := @mem_of_groupFor (buildResourceUsage agents) rt (by rw [hgrp]; exact hne)
      rw [hgrp] at hm
      exact hm
    have htot : 1 < totalNumericRequirement (entriesFor agents rt) := by
      rw [totalNumericRequirement_entriesFor]
      exact hsum
    refine ⟨mkResourceConflict rt (entriesFor agents rt), ?_, rfl⟩
    exact mem_detect_resource_conflicts.mpr
      ⟨(rt, entriesFor agents rt), hmem, hlen, htot, rfl⟩

theorem detect_fields (agents : List Agent) :
    ∀ c ∈ detect_resource_conflicts agents,
      c.conflict_type = "resource_contention"
      ∧ c.total_requirement = sumNumericRequirement agents c.resource_type
      ∧ c.severity = if 3/2 < c.total_requirement then "high" else "medium" := by
  intro c hc
  obtain ⟨g, hg, h1, h2, rfl⟩ := mem_detect_resource_conflicts.mp hc
  have hgrp : groupFor (buildResourceUsage agents) g.1 = g.2 :=
    groupFor_eq_of_mem (buildResourceUsage_keys_nodup agents) hg
  have hent : totalNumericRequirement g.2 = sumNumericRequirement agents g.1 := by
    conv_lhs => rw [← hgrp]
    rw [groupFor_buildResourceUsage, totalNumericRequirement_entriesFor]
  refine ⟨rfl, ?_, rfl⟩
  simpa [mkResourceConflict] using hent

/-! ### Claims C6 and C10 -/

/-- C6 fails on the code for singleton claimants: one agent requiring
`cpu: 2.0` gives a summed requirement of `2 > 1`, yet no conflict is emitted,
because the detector also demands that more than one usage entry exist for the
resource (`len(usage_list) > 1`). -/
theorem c6_counterexample :
    detect_resource_conflicts [hogAgent] = []
    ∧ sumNumericRequirement [hogAgent] "cpu" = 2
    ∧ (1:ℚ) < 2 :=
  ⟨rfl, by
    simp only [sumNumericRequirement, hogAgent, List.map_cons, List.map_nil,
      List.filterMap_cons, List.filterMap_nil, List.sum_cons, List.sum_nil]
    norm_num, by norm_num⟩

/-- C6 amended: for agents whose requirement dicts have no duplicate keys, a
`resource_contention` conflict is emitted for a resource exactly when at least
two of the supplied agents list it and its summed numeric requirement exceeds
`1.0`; every emitted conflict carries the sum as `total_requirement` and
severity `high` when it exceeds `1.5`, `medium` otherwise; in particular two
agents each requiring `cpu: 0.6` yield a conflict of total `1.2` and severity
`medium`. -/
theorem c6_amended (agents : List Agent) (rt : String)
    (hnd : ∀ a ∈ agents, (a.resource_requirements.map Prod.fst).Nodup) :
    ((∃ c ∈ detect_resource_conflicts agents, c.resource_type = rt) ↔
      2 ≤ countAgentsRequiring agents rt ∧ 1 < sumNumericRequirement agents rt)
    ∧ (∀ c ∈ detect_resource_conflicts agents,
        c.conflict_type = "resource_contention"
        ∧ c.total_requirement = sumNumericRequirement agents c.resource_type
        ∧ c.severity = if 3/2 < c.total_requirement then "high" else "medium")
    ∧ (∃ c ∈ detect_resource_conflicts [cpuAgent1, cpuAgent2],
        c.resource_type = "cpu" ∧ c.severity = "medium" ∧ c.total_requirement = 6/5) := by
  refine ⟨detect_for_resource_iff agents rt hnd, detect_fields agents, ?_⟩
  have hB : buildResourceUsage [cpuAgent1, cpuAgent2] =
      [("cpu", [(1, RVal.num (6/10)), (2, RVal.num (6/10))])] := rfl
  have htot : totalNumericRequirement [(1, RVal.num (6/10)), (2, RVal.num (6/10))] = 6/5 := by
    simp only [totalNumericRequirement, List.filterMap_cons, List.filterMap_nil,
      List.sum_cons, List.sum_nil]
    norm_num
  refine ⟨mkResourceConflict "cpu" [(1, RVal.num (6/10)), (2, RVal.num (6/10))],
    mem_detect_resource_conflicts.mpr ⟨("cpu", [(1, RVal.num (6/10)), (2, RVal.num (6/10))]),
      by rw [hB]; exact List.mem_cons_self _ _, by norm_num, by rw [htot]; norm_num, rfl⟩,
    rfl, ?_, htot⟩
  show (if totalNumericRequirement [(1, RVal.num (6/10)), (2, RVal.num (6/10))] > 3/2
    then "high" else "medium") = "medium"
  rw [htot, if_neg (by norm_num)]

/-- Witness for C6's amended statement at the two-agent `cpu: 0.6` scenario. -/
theorem c6_amended_witness :
    ((∃ c ∈ detect_resource_conflicts [cpuAgent1, cpuAgent2], c.resource_type = "cpu") ↔
      2 ≤ countAgentsRequiring [cpuAgent1, cpuAgent2] "cpu"
        ∧ 1 < sumNumericRequirement [cpuAgent1, cpuAgent2] "cpu")
    ∧ (∀ c ∈ detect_resource_conflicts [cpuAgent1, cpuAgent2],
        c.conflict_type = "resource_contention"
        ∧ c.total_requirement = sumNumericRequirement [cpuAgent1, cpuAgent2] c.resource_type
        ∧ c.severity = if 3/2 < c.total_requirement then "high" else "medium")
    ∧ (∃ c ∈ detect_resource_conflicts [cpuAgent1, cpuAgent2],
        c.resource_type = "cpu" ∧ c.severity = "medium" ∧ c.total_requirement = 6/5) :=
  c6_amended [cpuAgent1, cpuAgent2] "cpu" (by decide)

/-- C10: the detector only flags a resource claimed by at least two of the
supplied agents: when at most one agent lists a resource, no
`resource_contention` conflict is emitted for it, regardless of how large that
single requirement is. -/
theorem c10_single_claimant_not_flagged (agents : List Agent) (rt : String)
    (hnd : ∀ a ∈ agents, (a.resource_requirements.map Prod.fst).Nodup)
    (hone : countAgentsRequiring agents rt ≤ 1) :
    ∀ c ∈ detect_resource_conflicts agents, c.resource_type ≠ rt := by
  intro c hc hcrt
  obtain ⟨g, hg, h1, h2, rfl⟩ := mem_detect_resource_conflicts.mp hc
  have hg1 : g.1 = rt := hcrt
  subst hg1
  have hgrp : groupFor (buildResourceUsage agents) g.1 = g.2 :=
    groupFor_eq_of_mem (buildResourceUsage_keys_nodup agents) hg
  have hlen : g.2.length = countAgentsRequiring agents g.1 := by
    rw [← hgrp, groupFor_buildResourceUsage, length_entriesFor_eq_count agents g.1 hnd]
  omega

/-- Witness for C10: the lone `cpu: 2.0` agent (requirement above 1.0) triggers
no conflict for `cpu`. -/
theorem c10_single_claimant_witness :
    ¬ ∃ c ∈ detect_resource_conflicts [hogAgent], c.resource_type = "cpu" := by
  rintro ⟨c, hc, hrt⟩
  exact c10_single_claimant_not_flagged [hogAgent] "cpu" (by decide) (by decide) c hc hrt

end MultiAgent
